import Mathlib

/-!
Shallow embedding of `src/github/utils.ts` of the vscode-pull-request-github
adapter module, together with the pieces of the repository it depends on
(`common/diffHunk`, `common/comment`, `common/timelineEvent`, `github/interface`,
`github/graphql`, and the Octokit response shapes) which are not part of the
source snapshot and are therefore modelled from the specification.

JavaScript semantics conventions used throughout:
* a field that may be `null`/`undefined` is embedded as `Option _`;
* `a && a.f` is embedded as `Option.map`;
* `a || b` on booleans is `Option.getD` (absent/false → default);
* an unguarded member access on a possibly-absent object (which raises a
  `TypeError` at runtime) is embedded by returning `Except.error`.
-/

namespace PRGithub

/-- Modelled from the spec: the line-edit type tag {context, added, removed}
of `common/diffHunk` (file absent from the source snapshot). -/
inductive DiffLineType where
  | Context
  | Add
  | Delete
  deriving DecidableEq, Repr

/-- Modelled from the spec: one line-edit record of a diff hunk: original
line number or none, new line number or none, content, and a type tag. -/
structure DiffLine where
  type : DiffLineType
  oldLineNumber : Option Nat
  newLineNumber : Option Nat
  content : String
  deriving DecidableEq, Repr

/-- Modelled from the spec: one `@@ -a,b +c,d @@` region of a unified diff:
old-file start line and count, new-file start line and count, and the ordered
sequence of line-edit records. -/
structure DiffHunk where
  oldLineNumber : Nat
  oldLength : Nat
  newLineNumber : Nat
  newLength : Nat
  diffLines : List DiffLine
  deriving DecidableEq, Repr

/-- Leading decimal digits of a character list, and the remainder. -/
def leadingDigits : List Char → List Char × List Char
  | [] => ([], [])
  | c :: cs =>
    if c.isDigit then
      let (ds, rest) := leadingDigits cs
      (c :: ds, rest)
    else ([], c :: cs)

/-- Numeric value of a list of decimal digit characters. -/
def natOfDigits (ds : List Char) : Nat :=
  ds.foldl (fun a c => a * 10 + (c.toNat - 48)) 0

/-- Parse `<n>[,<m>]` from a character list; an omitted count defaults to 1
as in the unified-diff format. Returns the two numbers and the remainder. -/
def parseHunkRange (cs : List Char) : Option (Nat × Nat × List Char) :=
  match leadingDigits cs with
  | ([], _) => none
  | (ds, rest) =>
    match rest with
    | ',' :: rest2 =>
      match leadingDigits rest2 with
      | ([], _) => none
      | (ds2, rest3) => some (natOfDigits ds, natOfDigits ds2, rest3)
    | _ => some (natOfDigits ds, 1, rest)

/-- Modelled from the spec: recognise a hunk-header line
`@@ -<oldStart>[,<oldLen>] +<newStart>[,<newLen>] @@`, yielding
`(oldStart, oldLen, newStart, newLen)`. -/
def parseHunkHeader (line : String) : Option (Nat × Nat × Nat × Nat) :=
  match line.toList with
  | '@' :: '@' :: ' ' :: '-' :: rest =>
    match parseHunkRange rest with
    | some (oldStart, oldLen, ' ' :: '+' :: rest2) =>
      match parseHunkRange rest2 with
      | some (newStart, newLen, ' ' :: '@' :: '@' :: _) =>
        some (oldStart, oldLen, newStart, newLen)
      | _ => none
    | _ => none
  | _ => none

/-- State of the scanner while inside a hunk: the hunk built so far and the
two running line cursors. -/
structure HunkState where
  hunk : DiffHunk
  oldCur : Nat
  newCur : Nat

/-- Modelled from the spec: classify one non-header line by its leading
character (`+` added, `-` removed, anything else context), append the edit
record with the current cursor values, and advance the cursors. The recorded
content is the line text minus its leading marker character. -/
def classifyLine (st : HunkState) (line : String) : HunkState :=
  match line.toList with
  | '+' :: rest =>
    { hunk := { st.hunk with
        diffLines := st.hunk.diffLines ++
          [⟨DiffLineType.Add, none, some st.newCur, String.mk rest⟩] },
      oldCur := st.oldCur, newCur := st.newCur + 1 }
  | '-' :: rest =>
    { hunk := { st.hunk with
        diffLines := st.hunk.diffLines ++
          [⟨DiffLineType.Delete, some st.oldCur, none, String.mk rest⟩] },
      oldCur := st.oldCur + 1, newCur := st.newCur }
  | _ :: rest =>
    { hunk := { st.hunk with
        diffLines := st.hunk.diffLines ++
          [⟨DiffLineType.Context, some st.oldCur, some st.newCur, String.mk rest⟩] },
      oldCur := st.oldCur + 1, newCur := st.newCur + 1 }
  | [] =>
    { hunk := { st.hunk with
        diffLines := st.hunk.diffLines ++
          [⟨DiffLineType.Context, some st.oldCur, some st.newCur, ""⟩] },
      oldCur := st.oldCur + 1, newCur := st.newCur + 1 }

/-- Modelled from the spec: scan the lines; a header line closes the current
hunk (if any) and opens a new one with both cursors reset to the starts; a
non-header line before any header is ignored; any other line is classified
into the current hunk. -/
def scanHunkLines : List String → Option HunkState → List DiffHunk
  | [], none => []
  | [], some st => [st.hunk]
  | l :: ls, cur =>
    match parseHunkHeader l with
    | some (oldStart, oldLen, newStart, newLen) =>
      let closed := match cur with
        | some st => [st.hunk]
        | none => []
      closed ++ scanHunkLines ls
        (some ⟨⟨oldStart, oldLen, newStart, newLen, []⟩, oldStart, newStart⟩)
    | none =>
      match cur with
      | none => scanHunkLines ls none
      | some st => scanHunkLines ls (some (classifyLine st l))

/-- Modelled from the spec: `parseDiffHunk` of `common/diffHunk` (file absent
from the source snapshot): turn raw multi-hunk diff text into the finite
ordered sequence of structured hunks that the generator yields. -/
def parseDiffHunk (diffHunkPatch : String) : List DiffHunk :=
  scanHunkLines (diffHunkPatch.splitOn "\n") none

/-- Modelled from the spec: the normalized account shape (`IAccount` of
`github/interface`, file absent from the source snapshot). The spec names
`isUser`/`isEnterprise` flags derived from a `type` field; fields a
constructor does not assign are `none` (JavaScript `undefined`). -/
structure IAccount where
  login : String
  url : Option String
  avatarUrl : Option String
  isUser : Option Bool
  isEnterprise : Option Bool
  deriving DecidableEq, Repr

/-- Modelled from the spec: the `repo` sub-object of a normalized git ref. -/
structure IRepo where
  cloneUrl : String
  deriving DecidableEq, Repr

/-- Modelled from the spec: the normalized head/base ref shape selected as
`{label, ref, sha, repo.cloneUrl}`. -/
structure IGitHubRef where
  label : String
  ref : String
  sha : String
  repo : IRepo
  deriving DecidableEq, Repr

/-- Modelled from the spec: an Octokit REST user record; the adapter reads
`login`, `html_url`, `avatar_url` and the spec mentions a `type` string. -/
structure RESTUser where
  login : String
  html_url : String
  avatar_url : String
  type : String
  deriving DecidableEq, Repr

/-- Modelled from the spec: the `repo` sub-object of a REST head/base ref. -/
structure RESTRepo where
  clone_url : String
  deriving DecidableEq, Repr

/-- Modelled from the spec: an Octokit REST head/base ref record; `repo` is
`Option` so that an absent sub-object (deleted fork) can be expressed. -/
structure RESTHead where
  label : String
  ref : String
  sha : String
  repo : Option RESTRepo
  deriving DecidableEq, Repr

/-- Modelled from the spec: a REST label record carried through unchanged. -/
structure RESTLabel where
  name : String
  deriving DecidableEq, Repr

/-- Modelled from the spec: the union of the Octokit REST pull-request
response shapes the adapter accepts. `merged` and `mergeable` are `Option`
because only some response shapes carry them. -/
structure RESTPullRequest where
  number : Nat
  body : String
  title : String
  html_url : String
  user : RESTUser
  state : String
  assignee : Option RESTUser
  created_at : String
  updated_at : String
  head : RESTHead
  base : RESTHead
  labels : List RESTLabel
  node_id : String
  merged : Option Bool
  mergeable : Option Bool
  deriving DecidableEq, Repr

/-- Modelled from the spec: the normalized `PullRequest` shape
(`github/interface`, file absent from the source snapshot); fields only one
of the two converters assigns are `Option`. -/
structure PullRequest where
  number : Nat
  body : String
  bodyHTML : Option String
  title : String
  url : String
  user : IAccount
  state : String
  merged : Bool
  assignee : Option IAccount
  createdAt : String
  updatedAt : String
  head : Option IGitHubRef
  base : Option IGitHubRef
  labels : List RESTLabel
  mergeable : Option Bool
  nodeId : String
  deriving DecidableEq, Repr

/-- Modelled from the spec: the normalized `Comment` shape
(`common/comment`, file absent from the source snapshot). `diffHunks` is
`Option` to distinguish the not-yet-enriched state (JavaScript `undefined`)
from an attached list; GraphQL-only fields are `Option`. -/
structure Comment where
  url : String
  id : Nat
  pullRequestReviewId : Option Nat
  diffHunk : String
  diffHunks : Option (List DiffHunk)
  path : Option String
  position : Option Nat
  commitId : Option String
  originalPosition : Option Nat
  originalCommitId : Option String
  user : IAccount
  body : String
  createdAt : String
  htmlUrl : String
  graphNodeId : String
  canEdit : Option Bool
  canDelete : Option Bool
  isDraft : Option Bool
  deriving DecidableEq, Repr

/-- Embedding of `convertRESTUserToAccount` of `github/utils.ts`: copies `login`,
`html_url → url`, `avatar_url → avatarUrl`; no other field is assigned. -/
def convertRESTUserToAccount (user : RESTUser) : IAccount :=
  { login := user.login
    url := some user.html_url
    avatarUrl := some user.avatar_url
    isUser := none
    isEnterprise := none }

/-- Embedding of `convertRESTHeadToIGitHubRef` of `github/utils.ts`: selects
`{label, ref, sha, repo.cloneUrl}`. The access `head.repo.clone_url` is
unguarded in the source, so an absent `repo` raises a `TypeError`, embedded
as `Except.error`. -/
def convertRESTHeadToIGitHubRef (head : RESTHead) : Except String IGitHubRef :=
  match head.repo with
  | none => Except.error "TypeError: cannot read clone_url of undefined"
  | some repo =>
    Except.ok
      { label := head.label
        ref := head.ref
        sha := head.sha
        repo := { cloneUrl := repo.clone_url } }

/-- Embedding of `convertRESTPullRequestToRawPullRequest` of `github/utils.ts`:
field-by-field reshaping; `merged || false` is `Option.getD false`, the
`assignee ? ... : null` ternary is `Option.map`, and head/base go through
`convertRESTHeadToIGitHubRef` (which can raise). -/
def convertRESTPullRequestToRawPullRequest (pullRequest : RESTPullRequest) :
    Except String PullRequest := do
  let head ← convertRESTHeadToIGitHubRef pullRequest.head
  let base ← convertRESTHeadToIGitHubRef pullRequest.base
  Except.ok
    { number := pullRequest.number
      body := pullRequest.body
      bodyHTML := none
      title := pullRequest.title
      url := pullRequest.html_url
      user := convertRESTUserToAccount pullRequest.user
      state := pullRequest.state
      merged := pullRequest.merged.getD false
      assignee := pullRequest.assignee.map convertRESTUserToAccount
      createdAt := pullRequest.created_at
      updatedAt := pullRequest.updated_at
      head := some head
      base := some base
      labels := pullRequest.labels
      mergeable := pullRequest.mergeable
      nodeId := pullRequest.node_id }

/-- The materializing while-loop of `parseCommentDiffHunk`: repeatedly pull
the next value from the (finite) generator sequence and push it onto the
accumulated array, until the generator is done. -/
def materializeHunks : List DiffHunk → List DiffHunk → List DiffHunk
  | [], acc => acc
  | h :: rest, acc => materializeHunks rest (acc ++ [h])

/-- Embedding of `parseCommentDiffHunk` of `github/utils.ts`: run `parseDiffHunk` on the
comment's raw `diffHunk` text and consume the yielded sequence once, in
order, into a list. -/
def parseCommentDiffHunk (comment : Comment) : List DiffHunk :=
  materializeHunks (parseDiffHunk comment.diffHunk) []

/-- Modelled from the spec: an Octokit REST issue-comment response record
(`IssuesCreateCommentResponse` / `IssuesEditCommentResponse`). -/
structure RESTIssueComment where
  url : String
  id : Nat
  user : RESTUser
  body : String
  created_at : String
  html_url : String
  node_id : String
  deriving DecidableEq, Repr

/-- Embedding of `convertIssuesCreateCommentResponseToComment` of `github/utils.ts`:
issue comments carry no diff, so `diffHunk` is empty, `diffHunks` is the
empty list and the position/commit fields are `null`. -/
def convertIssuesCreateCommentResponseToComment (comment : RESTIssueComment) : Comment :=
  { url := comment.url
    id := comment.id
    pullRequestReviewId := none
    diffHunk := ""
    diffHunks := some []
    path := none
    position := none
    commitId := none
    originalPosition := none
    originalCommitId := none
    user := convertRESTUserToAccount comment.user
    body := comment.body
    createdAt := comment.created_at
    htmlUrl := comment.html_url
    graphNodeId := comment.node_id
    canEdit := none
    canDelete := none
    isDraft := none }

/-- Modelled from the spec: an Octokit REST review-comment response record
(`PullRequestsGetCommentsResponseItem` / `PullRequestsEditCommentResponse`);
nullable response fields are `Option`. -/
structure RESTReviewComment where
  url : String
  id : Nat
  pull_request_review_id : Option Nat
  diff_hunk : String
  path : Option String
  position : Option Nat
  commit_id : Option String
  original_position : Option Nat
  original_commit_id : Option String
  user : RESTUser
  body : String
  created_at : String
  html_url : String
  node_id : String
  deriving DecidableEq, Repr

/-- The object literal `ret` built first by
`convertPullRequestsGetCommentsResponseItemToComment`, before the
`ret.diffHunks = ...` in-place enrichment (`diffHunks` still undefined). -/
def convertPullRequestsGetCommentsResponseItemToCommentRaw
    (comment : RESTReviewComment) : Comment :=
  { url := comment.url
    id := comment.id
    pullRequestReviewId := comment.pull_request_review_id
    diffHunk := comment.diff_hunk
    diffHunks := none
    path := comment.path
    position := comment.position
    commitId := comment.commit_id
    originalPosition := comment.original_position
    originalCommitId := comment.original_commit_id
    user := convertRESTUserToAccount comment.user
    body := comment.body
    createdAt := comment.created_at
    htmlUrl := comment.html_url
    graphNodeId := comment.node_id
    canEdit := none
    canDelete := none
    isDraft := none }

/-- Embedding of `convertPullRequestsGetCommentsResponseItemToComment` of
`github/utils.ts`: build `ret`, parse its diff hunks, assign them to
`ret.diffHunks` in place, and return `ret`. -/
def convertPullRequestsGetCommentsResponseItemToComment
    (comment : RESTReviewComment) : Comment :=
  let ret := convertPullRequestsGetCommentsResponseItemToCommentRaw comment
  let diffHunks := parseCommentDiffHunk ret
  { ret with diffHunks := some diffHunks }

/-- Modelled from the spec: the timeline event-kind tags of
`common/timelineEvent` (file absent from the source snapshot). -/
inductive EventType where
  | Committed
  | Labeled
  | Milestoned
  | Assigned
  | Commented
  | Reviewed
  | Merged
  | Other
  deriving DecidableEq, Repr

/-- Embedding of `convertGraphQLEventType` of `github/utils.ts`: the fixed lookup table
from discriminator string to event kind; everything else maps to `Other`. -/
def convertGraphQLEventType (text : String) : EventType :=
  if text = "Commit" then EventType.Committed
  else if text = "LabeledEvent" then EventType.Labeled
  else if text = "MilestonedEvent" then EventType.Milestoned
  else if text = "AssignedEvent" then EventType.Assigned
  else if text = "IssueComment" then EventType.Commented
  else if text = "PullRequestReview" then EventType.Reviewed
  else if text = "MergedEvent" then EventType.Merged
  else EventType.Other

/-- Modelled from the spec: the `pullRequestReview` sub-object of a GraphQL
review comment. -/
structure GQLPullRequestReviewRef where
  databaseId : Nat
  deriving DecidableEq, Repr

/-- Modelled from the spec: a commit reference (`{oid}`) of the GraphQL API. -/
structure GQLCommitRef where
  oid : String
  deriving DecidableEq, Repr

/-- Modelled from the spec: a GraphQL review comment
(`GraphQL.ReviewComment`, file absent from the source snapshot); nullable
sub-objects are `Option`. -/
structure ReviewComment where
  id : String
  databaseId : Nat
  url : String
  body : String
  path : Option String
  viewerCanDelete : Bool
  pullRequestReview : Option GQLPullRequestReviewRef
  diffHunk : String
  position : Option Nat
  commit : Option GQLCommitRef
  originalPosition : Option Nat
  originalCommit : Option GQLCommitRef
  author : IAccount
  createdAt : String
  state : String
  deriving DecidableEq, Repr

/-- The object literal `c` built first by `parseGraphQLComment`, before the
`c.diffHunks = ...` in-place enrichment. The access `comment.commit.oid` is
unguarded, so an absent `commit` raises a `TypeError`; the guarded reads
`pullRequestReview && ...` and `originalCommit && ...` are `Option.map`. -/
def parseGraphQLCommentRaw (comment : ReviewComment) : Except String Comment :=
  match comment.commit with
  | none => Except.error "TypeError: cannot read oid of undefined"
  | some commit =>
    Except.ok
      { id := comment.databaseId
        url := comment.url
        body := comment.body
        path := comment.path
        canEdit := some comment.viewerCanDelete
        canDelete := some comment.viewerCanDelete
        pullRequestReviewId := comment.pullRequestReview.map (·.databaseId)
        diffHunk := comment.diffHunk
        diffHunks := none
        position := comment.position
        commitId := some commit.oid
        originalPosition := comment.originalPosition
        originalCommitId := comment.originalCommit.map (·.oid)
        user := comment.author
        createdAt := comment.createdAt
        htmlUrl := comment.url
        graphNodeId := comment.id
        isDraft := some (comment.state == "PENDING") }

/-- Embedding of `parseGraphQLComment` of `github/utils.ts`: build `c`, parse its diff
hunks, assign them to `c.diffHunks` in place, and return `c`. -/
def parseGraphQLComment (comment : ReviewComment) : Except String Comment := do
  let c ← parseGraphQLCommentRaw comment
  let diffHunks := parseCommentDiffHunk c
  Except.ok { c with diffHunks := some diffHunks }

/-- Modelled from the spec: the `repository` sub-object of a GraphQL ref. -/
structure GQLRefRepository where
  nameWithOwner : String
  url : String
  deriving DecidableEq, Repr

/-- Modelled from the spec: a GraphQL head/base ref with its repository and
target commit. -/
structure GQLRef where
  name : String
  repository : GQLRefRepository
  target : GQLCommitRef
  deriving DecidableEq, Repr

/-- Modelled from the spec: the GraphQL pull-request record inside a
`PullRequestResponse`; `headRef`/`baseRef` may be absent. -/
structure GQLPullRequest where
  id : String
  url : String
  number : Nat
  state : String
  body : String
  bodyHTML : String
  title : String
  createdAt : String
  updatedAt : String
  headRef : Option GQLRef
  baseRef : Option GQLRef
  author : IAccount
  merged : Bool
  mergeable : Option Bool
  deriving DecidableEq, Repr

/-- Modelled from the spec: the `PullRequestResponse` GraphQL envelope
(`repository.pullRequest`). -/
structure PullRequestResponse where
  repository : GQLPullRequest
  deriving DecidableEq, Repr

/-- Embedding of `parseGraphQLPullRequest` of `github/utils.ts`: unwraps the envelope and
reshapes; the `headRef ? ... : undefined` ternaries are `Option.map`. -/
def parseGraphQLPullRequest (pullRequest : PullRequestResponse) : PullRequest :=
  let graphQLPullRequest := pullRequest.repository
  { url := graphQLPullRequest.url
    number := graphQLPullRequest.number
    state := graphQLPullRequest.state
    body := graphQLPullRequest.body
    bodyHTML := some graphQLPullRequest.bodyHTML
    title := graphQLPullRequest.title
    createdAt := graphQLPullRequest.createdAt
    updatedAt := graphQLPullRequest.updatedAt
    head := graphQLPullRequest.headRef.map fun headRef =>
      { label := headRef.name
        ref := headRef.repository.nameWithOwner
        sha := headRef.target.oid
        repo := { cloneUrl := headRef.repository.url } }
    base := graphQLPullRequest.baseRef.map fun baseRef =>
      { label := baseRef.name
        ref := baseRef.repository.nameWithOwner
        sha := baseRef.target.oid
        repo := { cloneUrl := baseRef.repository.url } }
    user := graphQLPullRequest.author
    merged := graphQLPullRequest.merged
    assignee := none
    mergeable := graphQLPullRequest.mergeable
    nodeId := graphQLPullRequest.id
    labels := [] }

/-- Modelled from the spec: a GraphQL `IssueComment` timeline record; the
`typename` field embeds the discriminator string of the wire payload. -/
structure GQLIssueComment where
  typename : String
  databaseId : Nat
  url : String
  body : String
  bodyHTML : String
  author : IAccount
  viewerCanUpdate : Bool
  viewerCanDelete : Bool
  createdAt : String
  deriving DecidableEq, Repr

/-- Modelled from the spec: a GraphQL `PullRequestReview` timeline record. -/
structure GQLReview where
  typename : String
  databaseId : Nat
  submittedAt : String
  body : String
  bodyHTML : String
  url : String
  author : IAccount
  authorAssociation : String
  state : String
  deriving DecidableEq, Repr

/-- Modelled from the spec: the `author` sub-object of a GraphQL commit;
`user` may be absent. -/
structure GQLCommitAuthor where
  user : Option IAccount
  deriving DecidableEq, Repr

/-- Modelled from the spec: the `committer` sub-object of a GraphQL commit. -/
structure GQLCommitter where
  name : String
  avatarUrl : String
  deriving DecidableEq, Repr

/-- Modelled from the spec: a GraphQL `Commit` timeline record. -/
structure GQLCommit where
  typename : String
  oid : String
  author : GQLCommitAuthor
  committer : GQLCommitter
  url : String
  message : String
  deriving DecidableEq, Repr

/-- Modelled from the spec: the `mergeRef` sub-object of a merged event. -/
structure GQLMergeRef where
  name : String
  deriving DecidableEq, Repr

/-- Modelled from the spec: the `commit` sub-object of a merged event. -/
structure GQLMergedCommit where
  oid : String
  commitUrl : String
  deriving DecidableEq, Repr

/-- Modelled from the spec: a GraphQL `MergedEvent` timeline record. -/
structure GQLMergedEvent where
  typename : String
  id : String
  actor : IAccount
  createdAt : String
  mergeRef : GQLMergeRef
  commit : GQLMergedCommit
  url : String
  deriving DecidableEq, Repr

/-- Modelled from the spec: a GraphQL `AssignedEvent` timeline record. -/
structure GQLAssignedEvent where
  typename : String
  user : IAccount
  actor : IAccount
  deriving DecidableEq, Repr

/-- Modelled from the spec: the union of GraphQL timeline payload shapes
accepted by `parseGraphQLTimelineEvents`. -/
inductive GQLTimelineItem where
  | mergedEvent : GQLMergedEvent → GQLTimelineItem
  | review : GQLReview → GQLTimelineItem
  | issueComment : GQLIssueComment → GQLTimelineItem
  | commit : GQLCommit → GQLTimelineItem
  | assignedEvent : GQLAssignedEvent → GQLTimelineItem
  deriving DecidableEq, Repr

/-- The `__typename` discriminator string carried by a timeline payload. -/
def GQLTimelineItem.typenameOf : GQLTimelineItem → String
  | .mergedEvent e => e.typename
  | .review e => e.typename
  | .issueComment e => e.typename
  | .commit e => e.typename
  | .assignedEvent e => e.typename

/-- The runtime effect of the `event as GraphQL.IssueComment` cast: the
record's fields if the payload really has that shape, absent otherwise. -/
def GQLTimelineItem.asIssueComment : GQLTimelineItem → Option GQLIssueComment
  | .issueComment e => some e
  | _ => none

/-- The runtime effect of the `event as GraphQL.Review` cast. -/
def GQLTimelineItem.asReview : GQLTimelineItem → Option GQLReview
  | .review e => some e
  | _ => none

/-- The runtime effect of the `event as GraphQL.Commit` cast. -/
def GQLTimelineItem.asCommit : GQLTimelineItem → Option GQLCommit
  | .commit e => some e
  | _ => none

/-- The runtime effect of the `event as GraphQL.MergedEvent` cast. -/
def GQLTimelineItem.asMergedEvent : GQLTimelineItem → Option GQLMergedEvent
  | .mergedEvent e => some e
  | _ => none

/-- The runtime effect of the `event as GraphQL.AssignedEvent` cast. -/
def GQLTimelineItem.asAssignedEvent : GQLTimelineItem → Option GQLAssignedEvent
  | .assignedEvent e => some e
  | _ => none

/-- Modelled from the spec: the `CommentEvent` timeline variant of
`common/timelineEvent`; fields read off a mismatched payload are absent. -/
structure CommentEvent where
  htmlUrl : Option String
  body : Option String
  bodyHTML : Option String
  user : Option IAccount
  canEdit : Option Bool
  canDelete : Option Bool
  id : Option Nat
  createdAt : Option String
  deriving DecidableEq, Repr

/-- Modelled from the spec: the `ReviewEvent` timeline variant. -/
structure ReviewEvent where
  comments : List Comment
  submittedAt : Option String
  body : Option String
  bodyHTML : Option String
  htmlUrl : Option String
  user : Option IAccount
  authorAssociation : Option String
  state : Option String
  id : Option Nat
  deriving DecidableEq, Repr

/-- Modelled from the spec: the `CommitEvent` timeline variant. -/
structure CommitEvent where
  sha : String
  author : IAccount
  htmlUrl : String
  message : String
  deriving DecidableEq, Repr

/-- Modelled from the spec: the `MergedEvent` timeline variant. -/
structure MergedEventOut where
  user : IAccount
  createdAt : String
  mergeRef : String
  sha : String
  commitUrl : String
  url : String
  graphNodeId : String
  deriving DecidableEq, Repr

/-- Modelled from the spec: the `AssignEvent` timeline variant. -/
structure AssignEvent where
  user : Option IAccount
  actor : Option IAccount
  deriving DecidableEq, Repr

/-- Modelled from the spec: the tagged union of timeline event variants of
`common/timelineEvent` (file absent from the source snapshot). -/
inductive TimelineEvent where
  | commented : CommentEvent → TimelineEvent
  | reviewed : ReviewEvent → TimelineEvent
  | committed : CommitEvent → TimelineEvent
  | merged : MergedEventOut → TimelineEvent
  | assigned : AssignEvent → TimelineEvent
  deriving DecidableEq, Repr

/-- The body of the `events.forEach` loop of `parseGraphQLTimelineEvents`:
dispatch on `convertGraphQLEventType(event.__typename)`, push one entry for
the five handled kinds, fall through silently otherwise. The unguarded
nested reads `commitEv.author.user` and `mergeEv.mergeRef.name` raise a
`TypeError` when the payload does not have the casted shape; the direct
single-level reads of the other branches yield absent fields instead.
`commitEv.author.user || {...committer...}` is `Option.getD`. -/
def parseGraphQLTimelineEvent (event : GQLTimelineItem) :
    Except String (Option TimelineEvent) :=
  match convertGraphQLEventType event.typenameOf with
  | EventType.Commented =>
    let commentEvent := event.asIssueComment
    Except.ok (some (TimelineEvent.commented
      { htmlUrl := commentEvent.map (·.url)
        body := commentEvent.map (·.body)
        bodyHTML := commentEvent.map (·.bodyHTML)
        user := commentEvent.map (·.author)
        canEdit := commentEvent.map (·.viewerCanUpdate)
        canDelete := commentEvent.map (·.viewerCanDelete)
        id := commentEvent.map (·.databaseId)
        createdAt := commentEvent.map (·.createdAt) }))
  | EventType.Reviewed =>
    let reviewEvent := event.asReview
    Except.ok (some (TimelineEvent.reviewed
      { comments := []
        submittedAt := reviewEvent.map (·.submittedAt)
        body := reviewEvent.map (·.body)
        bodyHTML := reviewEvent.map (·.bodyHTML)
        htmlUrl := reviewEvent.map (·.url)
        user := reviewEvent.map (·.author)
        authorAssociation := reviewEvent.map (·.authorAssociation)
        state := reviewEvent.map (·.state)
        id := reviewEvent.map (·.databaseId) }))
  | EventType.Committed =>
    match event.asCommit with
    | none => Except.error "TypeError: cannot read user of undefined"
    | some commitEv =>
      Except.ok (some (TimelineEvent.committed
        { sha := commitEv.oid
          author := commitEv.author.user.getD
            { login := commitEv.committer.name
              url := none
              avatarUrl := some commitEv.committer.avatarUrl
              isUser := none
              isEnterprise := none }
          htmlUrl := commitEv.url
          message := commitEv.message }))
  | EventType.Merged =>
    match event.asMergedEvent with
    | none => Except.error "TypeError: cannot read name of undefined"
    | some mergeEv =>
      Except.ok (some (TimelineEvent.merged
        { user := mergeEv.actor
          createdAt := mergeEv.createdAt
          mergeRef := mergeEv.mergeRef.name
          sha := mergeEv.commit.oid
          commitUrl := mergeEv.commit.commitUrl
          url := mergeEv.url
          graphNodeId := mergeEv.id }))
  | EventType.Assigned =>
    let assignEv := event.asAssignedEvent
    Except.ok (some (TimelineEvent.assigned
      { user := assignEv.map (·.user)
        actor := assignEv.map (·.actor) }))
  | _ => Except.ok none

/-- Embedding of `parseGraphQLTimelineEvents` of `github/utils.ts`: fold the per-event
dispatch over the input list, pushing emitted entries onto `ret` in input
order; an exception in the loop body propagates out of the whole call. -/
def parseGraphQLTimelineEvents : List GQLTimelineItem →
    Except String (List TimelineEvent)
  | [] => Except.ok []
  | event :: rest => do
    let entry ← parseGraphQLTimelineEvent event
    let tail ← parseGraphQLTimelineEvents rest
    Except.ok (entry.toList ++ tail)

/-- The entry an event contributes on a successful run: driven by the embedded
per-event dispatch, `none` both for silently-dropped kinds and for the
raising mismatches (which cannot occur in a successful run). -/
def timelineEmission (event : GQLTimelineItem) : Option TimelineEvent :=
  match parseGraphQLTimelineEvent event with
  | Except.ok entry => entry
  | Except.error _ => none


/-- Concrete REST user payload used to instantiate universally quantified
theorems. -/
def sampleUser : RESTUser := ⟨"octocat", "https://u", "https://a", "User"⟩

/-- Concrete REST repo payload. -/
def sampleRepo : RESTRepo := ⟨"https://clone"⟩

/-- Concrete REST head ref payload with its repo present. -/
def sampleHead : RESTHead := ⟨"octocat:feature", "feature", "sha1", some sampleRepo⟩

/-- Concrete REST base ref payload. -/
def sampleBase : RESTHead := ⟨"octocat:master", "master", "sha2", some sampleRepo⟩

/-- Concrete REST head ref payload whose repo sub-object is absent. -/
def headNoRepo : RESTHead := ⟨"octocat:feature", "feature", "sha1", none⟩

/-- Concrete REST pull-request payload without a `merged` field. -/
def samplePR : RESTPullRequest :=
  ⟨42, "pr body", "pr title", "https://pr", sampleUser, "open", none,
   "2019-01-01", "2019-01-02", sampleHead, sampleBase, [⟨"bug"⟩], "node42", none, some true⟩

/-- Concrete REST review-comment payload. -/
def sampleRESTComment : RESTReviewComment :=
  ⟨"https://c", 7, some 3, "@@ -1 +1 @@\n-a\n+b", some "file.ts", some 1, some "c1",
   some 1, some "c0", sampleUser, "nice", "2019-01-03", "https://ch", "node7"⟩

/-- Concrete GraphQL account payload. -/
def sampleGQLAccount : IAccount := ⟨"alice", some "https://ua", some "https://aa", none, none⟩

/-- Concrete GraphQL review-comment payload with all sub-objects present. -/
def sampleGQLComment : ReviewComment :=
  ⟨"gnode9", 9, "https://gc", "gql body", some "file.ts", true, some ⟨4⟩,
   "@@ -2,2 +2,2 @@\n x\n-y\n+z", some 2, some ⟨"oid1"⟩, some 2, some ⟨"oid0"⟩,
   sampleGQLAccount, "2019-02-01", "PENDING"⟩

/-- Concrete GraphQL review-comment payload whose commit sub-object is
absent. -/
def gqlCommentNoCommit : ReviewComment :=
  ⟨"gnode9", 9, "https://gc", "gql body", some "file.ts", true, some ⟨4⟩,
   "@@ -2,2 +2,2 @@\n x\n-y\n+z", some 2, none, some 2, some ⟨"oid0"⟩,
   sampleGQLAccount, "2019-02-01", "PENDING"⟩

/-- Concrete GraphQL review-comment payload whose guarded optional fields
(`pullRequestReview`, `originalCommit`) are absent. -/
def gqlCommentMinimal : ReviewComment :=
  ⟨"gmin", 10, "https://gm", "b", none, false, none, "", none, some ⟨"oidm"⟩,
   none, none, sampleGQLAccount, "2019-02-02", "COMMENTED"⟩

/-- Concrete GraphQL issue-comment timeline payload. -/
def sampleIssueCommentEv : GQLIssueComment :=
  ⟨"IssueComment", 11, "https://ic", "icb", "<p>icb</p>", sampleGQLAccount, true, false,
   "2019-03-01"⟩

/-- Concrete GraphQL merged-event payload whose discriminator maps outside
the five handled kinds, so the loop drops it. -/
def droppedMergedEv : GQLMergedEvent :=
  ⟨"LabeledEvent", "mid", sampleGQLAccount, "2019-03-02", ⟨"master"⟩,
   ⟨"moid", "https://mc"⟩, "https://me"⟩

/-- Concrete GraphQL assigned-event timeline payload. -/
def sampleAssignedEv : GQLAssignedEvent :=
  ⟨"AssignedEvent", sampleGQLAccount, sampleGQLAccount⟩

/-- Concrete timeline payload list: a kept comment, a dropped event, a kept
assignment. -/
def sampleTimeline : List GQLTimelineItem :=
  [GQLTimelineItem.issueComment sampleIssueCommentEv,
   GQLTimelineItem.mergedEvent droppedMergedEv,
   GQLTimelineItem.assignedEvent sampleAssignedEv]

/-- The materializing loop of `parseCommentDiffHunk` appends the generator's
values to the accumulator in order. -/
theorem materializeHunks_append (l : List DiffHunk) :
    ∀ acc, materializeHunks l acc = acc ++ l := by
  induction l with
  | nil => intro acc; simp [materializeHunks]
  | cons h t ih => intro acc; simp [materializeHunks, ih]

/-- Consuming the generator once materializes exactly the parser's hunk
sequence, in order. -/
theorem parseCommentDiffHunk_eq (c : Comment) :
    parseCommentDiffHunk c = parseDiffHunk c.diffHunk := by
  simp [parseCommentDiffHunk, materializeHunks_append]

/-- Evaluation of the GraphQL comment literal when the `commit` sub-object is
present. -/
theorem parseGraphQLCommentRaw_some (g : ReviewComment) (commit : GQLCommitRef)
    (hc : g.commit = some commit) :
    parseGraphQLCommentRaw g = Except.ok
      { id := g.databaseId, url := g.url, body := g.body, path := g.path,
        canEdit := some g.viewerCanDelete, canDelete := some g.viewerCanDelete,
        pullRequestReviewId := g.pullRequestReview.map (·.databaseId),
        diffHunk := g.diffHunk, diffHunks := none, position := g.position,
        commitId := some commit.oid, originalPosition := g.originalPosition,
        originalCommitId := g.originalCommit.map (·.oid), user := g.author,
        createdAt := g.createdAt, htmlUrl := g.url, graphNodeId := g.id,
        isDraft := some (g.state == "PENDING") } := by
  simp [parseGraphQLCommentRaw, hc]

/-- A successful `parseGraphQLComment` run returns the raw literal enriched
with its parsed hunks. -/
theorem parseGraphQLComment_ok_elim (g : ReviewComment) (res : Comment)
    (h : parseGraphQLComment g = Except.ok res) :
    ∃ c, parseGraphQLCommentRaw g = Except.ok c ∧
      res = { c with diffHunks := some (parseCommentDiffHunk c) } := by
  unfold parseGraphQLComment at h
  cases hr : parseGraphQLCommentRaw g with
  | error e => rw [hr] at h; simp [Bind.bind, Except.bind] at h
  | ok c =>
    rw [hr] at h
    simp [Bind.bind, Except.bind] at h
    exact ⟨c, rfl, h.symm⟩

/-- Evaluation of the head/base ref conversion when `repo` is present. -/
theorem convertRESTHeadToIGitHubRef_some (h : RESTHead) (repo : RESTRepo)
    (hr : h.repo = some repo) :
    convertRESTHeadToIGitHubRef h =
      Except.ok { label := h.label, ref := h.ref, sha := h.sha,
                  repo := { cloneUrl := repo.clone_url } } := by
  simp [convertRESTHeadToIGitHubRef, hr]

/-- The head/base ref conversion succeeds exactly when `repo` is present. -/
theorem convertRESTHeadToIGitHubRef_isOk (h : RESTHead) :
    (convertRESTHeadToIGitHubRef h).isOk = h.repo.isSome := by
  cases hr : h.repo <;> simp [convertRESTHeadToIGitHubRef, hr, Except.isOk, Except.toBool]

/-- A successful REST pull-request conversion yields the record literal with
converted head and base refs. -/
theorem convertRESTPullRequestToRawPullRequest_ok_elim
    (pr : RESTPullRequest) (res : PullRequest)
    (h : convertRESTPullRequestToRawPullRequest pr = Except.ok res) :
    ∃ hr br, convertRESTHeadToIGitHubRef pr.head = Except.ok hr ∧
      convertRESTHeadToIGitHubRef pr.base = Except.ok br ∧
      res = { number := pr.number, body := pr.body, bodyHTML := none,
              title := pr.title, url := pr.html_url,
              user := convertRESTUserToAccount pr.user, state := pr.state,
              merged := pr.merged.getD false,
              assignee := pr.assignee.map convertRESTUserToAccount,
              createdAt := pr.created_at, updatedAt := pr.updated_at,
              head := some hr, base := some br, labels := pr.labels,
              mergeable := pr.mergeable, nodeId := pr.node_id } := by
  unfold convertRESTPullRequestToRawPullRequest at h
  cases h1 : convertRESTHeadToIGitHubRef pr.head with
  | error e => rw [h1] at h; simp [Bind.bind, Except.bind] at h
  | ok hr =>
    rw [h1] at h
    cases h2 : convertRESTHeadToIGitHubRef pr.base with
    | error e => rw [h2] at h; simp [Bind.bind, Except.bind] at h
    | ok br =>
      rw [h2] at h
      simp [Bind.bind, Except.bind] at h
      exact ⟨hr, br, rfl, rfl, h.symm⟩

/-- A successful timeline run emits exactly the per-event emissions, in input
order. -/
theorem parseGraphQLTimelineEvents_ok_elim :
    ∀ (evs : List GQLTimelineItem) (out : List TimelineEvent),
      parseGraphQLTimelineEvents evs = Except.ok out →
      out = evs.filterMap timelineEmission := by
  intro evs
  induction evs with
  | nil =>
    intro out h
    simp [parseGraphQLTimelineEvents] at h
    simp [h.symm]
  | cons e rest ih =>
    intro out h
    unfold parseGraphQLTimelineEvents at h
    cases he : parseGraphQLTimelineEvent e with
    | error err => rw [he] at h; simp [Bind.bind, Except.bind] at h
    | ok entry =>
      rw [he] at h
      cases ht : parseGraphQLTimelineEvents rest with
      | error err => rw [ht] at h; simp [Bind.bind, Except.bind] at h
      | ok tail =>
        rw [ht] at h
        simp [Bind.bind, Except.bind] at h
        rw [← h, List.filterMap_cons, ih tail ht]
        simp [timelineEmission, he]
        cases entry <;> simp [Option.toList]

/-- C1: every comment converted from the REST API
(`convertPullRequestsGetCommentsResponseItemToComment`) or the GraphQL API
(`parseGraphQLComment`) carries as `diffHunks` exactly the finite ordered list
the diff-hunk parser (`parseDiffHunk`, consumed once via
`parseCommentDiffHunk`) yields on the comment's raw `diffHunk` text. -/
theorem comment_diffHunks_from_parseDiffHunk :
    (∀ c : Comment, parseCommentDiffHunk c = parseDiffHunk c.diffHunk) ∧
    (∀ r : RESTReviewComment,
      (convertPullRequestsGetCommentsResponseItemToComment r).diffHunks =
        some (parseDiffHunk r.diff_hunk)) ∧
    (∀ (g : ReviewComment) (res : Comment),
      parseGraphQLComment g = Except.ok res →
        res.diffHunks = some (parseDiffHunk g.diffHunk)) := by
  refine ⟨parseCommentDiffHunk_eq, ?_, ?_⟩
  · intro r
    simp [convertPullRequestsGetCommentsResponseItemToComment, parseCommentDiffHunk_eq,
      convertPullRequestsGetCommentsResponseItemToCommentRaw]
  · intro g res h
    obtain ⟨c, hc, hres⟩ := parseGraphQLComment_ok_elim g res h
    cases hcm : g.commit with
    | none => simp [parseGraphQLCommentRaw, hcm] at hc
    | some commit =>
      rw [parseGraphQLCommentRaw_some g commit hcm] at hc
      injection hc with h1
      subst hres
      simp [parseCommentDiffHunk_eq, ← h1]

/-- Witness for C1 at concrete REST and GraphQL comment payloads. -/
theorem comment_diffHunks_from_parseDiffHunk_witness :
    (convertPullRequestsGetCommentsResponseItemToComment sampleRESTComment).diffHunks =
      some (parseDiffHunk sampleRESTComment.diff_hunk) ∧
    (parseGraphQLComment sampleGQLComment).map Comment.diffHunks =
      Except.ok (some (parseDiffHunk sampleGQLComment.diffHunk)) := by
  refine ⟨comment_diffHunks_from_parseDiffHunk.2.1 sampleRESTComment, ?_⟩
  cases hres : parseGraphQLComment sampleGQLComment with
  | error e =>
    have hok : (parseGraphQLComment sampleGQLComment).isOk = true := rfl
    rw [hres] at hok
    exact absurd hok (by simp [Except.isOk, Except.toBool])
  | ok res =>
    simp [Except.map]
    exact comment_diffHunks_from_parseDiffHunk.2.2 sampleGQLComment res hres

/-- C2 counterexample: `convertRESTHeadToIGitHubRef` with an absent `repo`
sub-object and `parseGraphQLComment` with an absent `commit` sub-object both
raise a `TypeError` (embedded as `Except.error`), contradicting the claim that
no adapter throws when an optional sub-object is absent. -/
theorem adapters_throw_on_absent_subobject :
    (convertRESTHeadToIGitHubRef headNoRepo).isOk = false ∧
    (parseGraphQLComment gqlCommentNoCommit).isOk = false :=
  ⟨rfl, rfl⟩

/-- C2 (amended): adapters propagate absent guarded optional fields
(`assignee`, `mergeable`, `pullRequestReview`, `originalCommit`) as
null/undefined without failing, but `convertRESTHeadToIGitHubRef` succeeds
exactly when the input's `repo` sub-object is present and `parseGraphQLComment`
succeeds exactly when the input's `commit` sub-object is present. -/
theorem adapters_absent_optional_fields :
    (∀ h : RESTHead,
      (convertRESTHeadToIGitHubRef h).isOk = true ↔ h.repo.isSome = true) ∧
    (∀ g : ReviewComment,
      (parseGraphQLComment g).isOk = true ↔ g.commit.isSome = true) ∧
    (∀ (g : ReviewComment) (res : Comment), parseGraphQLComment g = Except.ok res →
      (g.pullRequestReview = none → res.pullRequestReviewId = none) ∧
      (g.originalCommit = none → res.originalCommitId = none)) ∧
    (∀ (pr : RESTPullRequest) (res : PullRequest),
      convertRESTPullRequestToRawPullRequest pr = Except.ok res →
      (pr.assignee = none → res.assignee = none) ∧
      (pr.mergeable = none → res.mergeable = none)) := by
  refine ⟨?_, ?_, ?_, ?_⟩
  · intro h
    rw [convertRESTHeadToIGitHubRef_isOk]
  · intro g
    cases hcm : g.commit <;>
      simp [parseGraphQLComment, parseGraphQLCommentRaw, hcm, Bind.bind, Except.bind,
        Except.isOk, Except.toBool]
  · intro g res h
    obtain ⟨c, hc, hres⟩ := parseGraphQLComment_ok_elim g res h
    cases hcm : g.commit with
    | none => simp [parseGraphQLCommentRaw, hcm] at hc
    | some commit =>
      rw [parseGraphQLCommentRaw_some g commit hcm] at hc
      injection hc with h1
      subst hres
      constructor <;> intro hnone <;> simp [← h1, hnone]
  · intro pr res h
    obtain ⟨hr, br, h1, h2, hres⟩ := convertRESTPullRequestToRawPullRequest_ok_elim pr res h
    subst hres
    constructor <;> intro hnone <;> simp [hnone]

/-- Witness for C2 at concrete payloads with present sub-objects and absent
guarded optional fields. -/
theorem adapters_absent_optional_fields_witness :
    (convertRESTHeadToIGitHubRef sampleHead).isOk = true ∧
    (parseGraphQLComment gqlCommentMinimal).map Comment.pullRequestReviewId =
      Except.ok none ∧
    (parseGraphQLComment gqlCommentMinimal).map Comment.originalCommitId =
      Except.ok none := by
  cases hres : parseGraphQLComment gqlCommentMinimal with
  | error e =>
    have hok : (parseGraphQLComment gqlCommentMinimal).isOk = true :=
      (adapters_absent_optional_fields.2.1 gqlCommentMinimal).mpr rfl
    rw [hres] at hok
    exact absurd hok (by simp [Except.isOk, Except.toBool])
  | ok res =>
    have h := adapters_absent_optional_fields.2.2.1 gqlCommentMinimal res hres
    refine ⟨(adapters_absent_optional_fields.1 sampleHead).mpr rfl, ?_, ?_⟩
    · simp [Except.map]
      exact h.1 rfl
    · simp [Except.map]
      exact h.2 rfl

/-- C3: the pull request produced by `convertRESTPullRequestToRawPullRequest`
has `merged = false` when the source record lacks a `merged` field or carries
a falsy one, and `merged = true` when the source carries `merged = true`. -/
theorem merged_default_false :
    ∀ (pr : RESTPullRequest) (res : PullRequest),
      convertRESTPullRequestToRawPullRequest pr = Except.ok res →
      res.merged = pr.merged.getD false ∧
      (pr.merged = none → res.merged = false) ∧
      (pr.merged = some false → res.merged = false) ∧
      (pr.merged = some true → res.merged = true) := by
  intro pr res h
  obtain ⟨hr, br, h1, h2, hres⟩ := convertRESTPullRequestToRawPullRequest_ok_elim pr res h
  subst hres
  refine ⟨rfl, ?_, ?_, ?_⟩ <;> intro hm <;> simp [hm]

/-- Witness for C3 at a concrete pull-request payload lacking `merged`. -/
theorem merged_default_false_witness :
    (convertRESTPullRequestToRawPullRequest samplePR).map PullRequest.merged =
      Except.ok false := by
  cases hres : convertRESTPullRequestToRawPullRequest samplePR with
  | error e =>
    have hok : (convertRESTPullRequestToRawPullRequest samplePR).isOk = true := rfl
    rw [hres] at hok
    exact absurd hok (by simp [Except.isOk, Except.toBool])
  | ok res =>
    simp [Except.map]
    exact (merged_default_false samplePR res hres).2.1 rfl

/-- C4: `convertGraphQLEventType` maps the discriminator string "MergedEvent"
to the Merged event kind and every string outside the fixed lookup table to
the Other event kind. -/
theorem eventType_lookup_table :
    convertGraphQLEventType "MergedEvent" = EventType.Merged ∧
    ∀ s : String,
      s ∉ (["Commit", "LabeledEvent", "MilestonedEvent", "AssignedEvent",
            "IssueComment", "PullRequestReview", "MergedEvent"] : List String) →
      convertGraphQLEventType s = EventType.Other := by
  refine ⟨rfl, ?_⟩
  intro s hs
  simp only [List.mem_cons, List.not_mem_nil, or_false, not_or] at hs
  obtain ⟨h1, h2, h3, h4, h5, h6, h7⟩ := hs
  simp [convertGraphQLEventType, h1, h2, h3, h4, h5, h6, h7]

/-- Witness for C4 at the strings "ClosedEvent" and "MergedEvent". -/
theorem eventType_lookup_table_witness :
    convertGraphQLEventType "ClosedEvent" = EventType.Other ∧
    convertGraphQLEventType "MergedEvent" = EventType.Merged :=
  ⟨eventType_lookup_table.2 "ClosedEvent" (by decide), eventType_lookup_table.1⟩

/-- C5 counterexample: for a user record with type "User",
`convertRESTUserToAccount` leaves `isUser` and `isEnterprise` unset, so the
result does not have `isUser = true` and `isEnterprise = false`. -/
theorem rest_account_ignores_type_field :
    sampleUser.type = "User" ∧
    (convertRESTUserToAccount sampleUser).isUser = none ∧
    (convertRESTUserToAccount sampleUser).isEnterprise = none ∧
    ¬ ((convertRESTUserToAccount sampleUser).isUser = some true ∧
       (convertRESTUserToAccount sampleUser).isEnterprise = some false) := by
  refine ⟨rfl, rfl, rfl, ?_⟩
  intro h
  exact Option.noConfusion h.1

/-- C5 (amended): `convertRESTUserToAccount` copies `login`,
`html_url` to `url` and `avatar_url` to `avatarUrl`, and derives no
`isUser`/`isEnterprise` flags from the `type` field: both stay undefined for
every input record. -/
theorem rest_account_fields :
    ∀ u : RESTUser, convertRESTUserToAccount u =
      { login := u.login, url := some u.html_url, avatarUrl := some u.avatar_url,
        isUser := none, isEnterprise := none } :=
  fun _ => rfl

/-- C6: `convertRESTPullRequestToRawPullRequest` derives its head and base
sub-objects through `convertRESTHeadToIGitHubRef`, which selects exactly
`{label, ref, sha, repo.cloneUrl}` with `cloneUrl` taken from the source's
`repo.clone_url`. -/
theorem head_base_ref_selection :
    (∀ (h : RESTHead) (repo : RESTRepo), h.repo = some repo →
      convertRESTHeadToIGitHubRef h =
        Except.ok { label := h.label, ref := h.ref, sha := h.sha,
                    repo := { cloneUrl := repo.clone_url } }) ∧
    (∀ (pr : RESTPullRequest) (res : PullRequest),
      convertRESTPullRequestToRawPullRequest pr = Except.ok res →
      res.head = (convertRESTHeadToIGitHubRef pr.head).toOption ∧
      res.base = (convertRESTHeadToIGitHubRef pr.base).toOption) := by
  refine ⟨convertRESTHeadToIGitHubRef_some, ?_⟩
  intro pr res h
  obtain ⟨hr, br, h1, h2, hres⟩ := convertRESTPullRequestToRawPullRequest_ok_elim pr res h
  subst hres
  exact ⟨by rw [h1]; rfl, by rw [h2]; rfl⟩

/-- Witness for C6 at a concrete head ref and pull-request payload. -/
theorem head_base_ref_selection_witness :
    convertRESTHeadToIGitHubRef sampleHead =
      Except.ok { label := sampleHead.label, ref := sampleHead.ref,
                  sha := sampleHead.sha,
                  repo := { cloneUrl := sampleRepo.clone_url } } ∧
    (convertRESTPullRequestToRawPullRequest samplePR).map PullRequest.head =
      Except.ok ((convertRESTHeadToIGitHubRef samplePR.head).toOption) := by
  refine ⟨head_base_ref_selection.1 sampleHead sampleRepo rfl, ?_⟩
  cases hres : convertRESTPullRequestToRawPullRequest samplePR with
  | error e =>
    have hok : (convertRESTPullRequestToRawPullRequest samplePR).isOk = true := rfl
    rw [hres] at hok
    exact absurd hok (by simp [Except.isOk, Except.toBool])
  | ok res =>
    simp [Except.map]
    exact (head_base_ref_selection.2 samplePR res hres).1

/-- C7: every embedded adapter function is deterministic: two runs on equal
input records produce equal outputs. -/
theorem adapters_deterministic :
    (∀ u v : RESTUser, u = v →
      convertRESTUserToAccount u = convertRESTUserToAccount v) ∧
    (∀ a b : RESTHead, a = b →
      convertRESTHeadToIGitHubRef a = convertRESTHeadToIGitHubRef b) ∧
    (∀ a b : RESTPullRequest, a = b →
      convertRESTPullRequestToRawPullRequest a = convertRESTPullRequestToRawPullRequest b) ∧
    (∀ a b : RESTIssueComment, a = b →
      convertIssuesCreateCommentResponseToComment a =
        convertIssuesCreateCommentResponseToComment b) ∧
    (∀ a b : RESTReviewComment, a = b →
      convertPullRequestsGetCommentsResponseItemToComment a =
        convertPullRequestsGetCommentsResponseItemToComment b) ∧
    (∀ a b : String, a = b →
      convertGraphQLEventType a = convertGraphQLEventType b ∧
      parseDiffHunk a = parseDiffHunk b) ∧
    (∀ a b : ReviewComment, a = b →
      parseGraphQLComment a = parseGraphQLComment b) ∧
    (∀ a b : PullRequestResponse, a = b →
      parseGraphQLPullRequest a = parseGraphQLPullRequest b) ∧
    (∀ a b : List GQLTimelineItem, a = b →
      parseGraphQLTimelineEvents a = parseGraphQLTimelineEvents b) :=
  ⟨fun _ _ h => h ▸ rfl, fun _ _ h => h ▸ rfl, fun _ _ h => h ▸ rfl,
   fun _ _ h => h ▸ rfl, fun _ _ h => h ▸ rfl, fun _ _ h => ⟨h ▸ rfl, h ▸ rfl⟩,
   fun _ _ h => h ▸ rfl, fun _ _ h => h ▸ rfl, fun _ _ h => h ▸ rfl⟩

/-- Witness for C7 at concrete pull-request, comment and timeline payloads. -/
theorem adapters_deterministic_witness :
    convertRESTPullRequestToRawPullRequest samplePR =
      convertRESTPullRequestToRawPullRequest samplePR ∧
    parseGraphQLComment sampleGQLComment = parseGraphQLComment sampleGQLComment ∧
    parseGraphQLTimelineEvents sampleTimeline = parseGraphQLTimelineEvents sampleTimeline :=
  ⟨adapters_deterministic.2.2.1 samplePR samplePR rfl,
   adapters_deterministic.2.2.2.2.2.2.1 sampleGQLComment sampleGQLComment rfl,
   adapters_deterministic.2.2.2.2.2.2.2.2 sampleTimeline sampleTimeline rfl⟩

/-- C8: the in-place enrichment attaching parsed diff hunks changes only the
`diffHunks` field of a comment built by
`convertPullRequestsGetCommentsResponseItemToComment` or
`parseGraphQLComment`: every other field is identical before and after the
assignment, and the returned value is exactly the pre-state with `diffHunks`
replaced. -/
theorem enrichment_changes_only_diffHunks :
    (∀ r : RESTReviewComment,
      (convertPullRequestsGetCommentsResponseItemToComment r).url =
        (convertPullRequestsGetCommentsResponseItemToCommentRaw r).url ∧
      (convertPullRequestsGetCommentsResponseItemToComment r).id =
        (convertPullRequestsGetCommentsResponseItemToCommentRaw r).id ∧
      (convertPullRequestsGetCommentsResponseItemToComment r).pullRequestReviewId =
        (convertPullRequestsGetCommentsResponseItemToCommentRaw r).pullRequestReviewId ∧
      (convertPullRequestsGetCommentsResponseItemToComment r).diffHunk =
        (convertPullRequestsGetCommentsResponseItemToCommentRaw r).diffHunk ∧
      (convertPullRequestsGetCommentsResponseItemToComment r).path =
        (convertPullRequestsGetCommentsResponseItemToCommentRaw r).path ∧
      (convertPullRequestsGetCommentsResponseItemToComment r).position =
        (convertPullRequestsGetCommentsResponseItemToCommentRaw r).position ∧
      (convertPullRequestsGetCommentsResponseItemToComment r).commitId =
        (convertPullRequestsGetCommentsResponseItemToCommentRaw r).commitId ∧
      (convertPullRequestsGetCommentsResponseItemToComment r).originalPosition =
        (convertPullRequestsGetCommentsResponseItemToCommentRaw r).originalPosition ∧
      (convertPullRequestsGetCommentsResponseItemToComment r).originalCommitId =
        (convertPullRequestsGetCommentsResponseItemToCommentRaw r).originalCommitId ∧
      (convertPullRequestsGetCommentsResponseItemToComment r).user =
        (convertPullRequestsGetCommentsResponseItemToCommentRaw r).user ∧
      (convertPullRequestsGetCommentsResponseItemToComment r).body =
        (convertPullRequestsGetCommentsResponseItemToCommentRaw r).body ∧
      (convertPullRequestsGetCommentsResponseItemToComment r).createdAt =
        (convertPullRequestsGetCommentsResponseItemToCommentRaw r).createdAt ∧
      (convertPullRequestsGetCommentsResponseItemToComment r).htmlUrl =
        (convertPullRequestsGetCommentsResponseItemToCommentRaw r).htmlUrl ∧
      (convertPullRequestsGetCommentsResponseItemToComment r).graphNodeId =
        (convertPullRequestsGetCommentsResponseItemToCommentRaw r).graphNodeId ∧
      (convertPullRequestsGetCommentsResponseItemToComment r).canEdit =
        (convertPullRequestsGetCommentsResponseItemToCommentRaw r).canEdit ∧
      (convertPullRequestsGetCommentsResponseItemToComment r).canDelete =
        (convertPullRequestsGetCommentsResponseItemToCommentRaw r).canDelete ∧
      (convertPullRequestsGetCommentsResponseItemToComment r).isDraft =
        (convertPullRequestsGetCommentsResponseItemToCommentRaw r).isDraft ∧
      (convertPullRequestsGetCommentsResponseItemToCommentRaw r).diffHunks = none ∧
      (convertPullRequestsGetCommentsResponseItemToComment r).diffHunks =
        some (parseCommentDiffHunk (convertPullRequestsGetCommentsResponseItemToCommentRaw r)) ∧
      convertPullRequestsGetCommentsResponseItemToComment r =
        { convertPullRequestsGetCommentsResponseItemToCommentRaw r with
          diffHunks :=
            some (parseCommentDiffHunk (convertPullRequestsGetCommentsResponseItemToCommentRaw r)) }) ∧
    (∀ (g : ReviewComment) (pre post : Comment),
      parseGraphQLCommentRaw g = Except.ok pre →
      parseGraphQLComment g = Except.ok post →
      post.url = pre.url ∧ post.id = pre.id ∧
      post.pullRequestReviewId = pre.pullRequestReviewId ∧
      post.diffHunk = pre.diffHunk ∧ post.path = pre.path ∧
      post.position = pre.position ∧ post.commitId = pre.commitId ∧
      post.originalPosition = pre.originalPosition ∧
      post.originalCommitId = pre.originalCommitId ∧ post.user = pre.user ∧
      post.body = pre.body ∧ post.createdAt = pre.createdAt ∧
      post.htmlUrl = pre.htmlUrl ∧ post.graphNodeId = pre.graphNodeId ∧
      post.canEdit = pre.canEdit ∧ post.canDelete = pre.canDelete ∧
      post.isDraft = pre.isDraft ∧ pre.diffHunks = none ∧
      post = { pre with diffHunks := some (parseCommentDiffHunk pre) }) := by
  constructor
  · intro r
    exact ⟨rfl, rfl, rfl, rfl, rfl, rfl, rfl, rfl, rfl, rfl, rfl, rfl, rfl, rfl, rfl,
           rfl, rfl, rfl, rfl, rfl⟩
  · intro g pre post h1 h2
    unfold parseGraphQLComment at h2
    rw [h1] at h2
    simp [Bind.bind, Except.bind] at h2
    subst h2
    have hdh : pre.diffHunks = none := by
      obtain ⟨c, hc, hpre⟩ : ∃ c, parseGraphQLCommentRaw g = Except.ok c ∧ pre = c :=
        ⟨pre, h1, rfl⟩
      cases hcm : g.commit with
      | none => simp [parseGraphQLCommentRaw, hcm] at hc
      | some commit =>
        rw [parseGraphQLCommentRaw_some g commit hcm] at hc
        injection hc with hlit
        rw [hpre, ← hlit]
    exact ⟨rfl, rfl, rfl, rfl, rfl, rfl, rfl, rfl, rfl, rfl, rfl, rfl, rfl, rfl, rfl,
           rfl, rfl, hdh, rfl⟩

/-- Witness for C8 at a concrete GraphQL comment payload. -/
theorem enrichment_changes_only_diffHunks_witness :
    (parseGraphQLComment sampleGQLComment).map Comment.url =
      (parseGraphQLCommentRaw sampleGQLComment).map Comment.url ∧
    (parseGraphQLComment sampleGQLComment).map Comment.body =
      (parseGraphQLCommentRaw sampleGQLComment).map Comment.body := by
  cases h1 : parseGraphQLCommentRaw sampleGQLComment with
  | error e =>
    have hok : (parseGraphQLCommentRaw sampleGQLComment).isOk = true := rfl
    rw [h1] at hok
    exact absurd hok (by simp [Except.isOk, Except.toBool])
  | ok pre =>
    cases h2 : parseGraphQLComment sampleGQLComment with
    | error e =>
      have hok : (parseGraphQLComment sampleGQLComment).isOk = true := rfl
      rw [h2] at hok
      exact absurd hok (by simp [Except.isOk, Except.toBool])
    | ok post =>
      obtain ⟨hurl, _, _, _, _, _, _, _, _, _, hbody, _⟩ :=
        enrichment_changes_only_diffHunks.2 sampleGQLComment pre post h1 h2
      exact ⟨by simp [Except.map, hurl], by simp [Except.map, hbody]⟩

/-- C9: every comment parsed by `parseGraphQLComment` has `canEdit` equal to
`canDelete`: both flags are assigned from the source's `viewerCanDelete`. -/
theorem graphql_canEdit_eq_canDelete :
    ∀ (g : ReviewComment) (res : Comment),
      parseGraphQLComment g = Except.ok res →
      res.canEdit = res.canDelete ∧
      res.canEdit = some g.viewerCanDelete ∧
      res.canDelete = some g.viewerCanDelete := by
  intro g res h
  obtain ⟨c, hc, hres⟩ := parseGraphQLComment_ok_elim g res h
  cases hcm : g.commit with
  | none => simp [parseGraphQLCommentRaw, hcm] at hc
  | some commit =>
    rw [parseGraphQLCommentRaw_some g commit hcm] at hc
    injection hc with h1
    subst hres
    simp [← h1]

/-- Witness for C9 at a concrete GraphQL comment payload. -/
theorem graphql_canEdit_eq_canDelete_witness :
    (parseGraphQLComment sampleGQLComment).map Comment.canEdit =
      (parseGraphQLComment sampleGQLComment).map Comment.canDelete ∧
    (parseGraphQLComment sampleGQLComment).map Comment.canEdit =
      Except.ok (some sampleGQLComment.viewerCanDelete) := by
  cases hres : parseGraphQLComment sampleGQLComment with
  | error e =>
    have hok : (parseGraphQLComment sampleGQLComment).isOk = true := rfl
    rw [hres] at hok
    exact absurd hok (by simp [Except.isOk, Except.toBool])
  | ok res =>
    have h := graphql_canEdit_eq_canDelete sampleGQLComment res hres
    exact ⟨by simp [Except.map, h.1], by simp [Except.map, h.2.1]⟩

/-- C10: `parseGraphQLTimelineEvents` emits an output entry only for events
whose discriminator maps to one of {Commented, Reviewed, Committed, Merged,
Assigned}; events of any other kind are silently dropped, the output is the
in-order filter-map of the input, and its length is at most the input's. -/
theorem timeline_events_filter :
    (∀ e : GQLTimelineItem,
      convertGraphQLEventType e.typenameOf ∉
        ([EventType.Commented, EventType.Reviewed, EventType.Committed,
          EventType.Merged, EventType.Assigned] : List EventType) →
      parseGraphQLTimelineEvent e = Except.ok none) ∧
    (∀ (evs : List GQLTimelineItem) (out : List TimelineEvent),
      parseGraphQLTimelineEvents evs = Except.ok out →
      out = evs.filterMap timelineEmission ∧ out.length ≤ evs.length) := by
  constructor
  · intro e he
    unfold parseGraphQLTimelineEvent
    rcases hk : convertGraphQLEventType e.typenameOf <;> rw [hk] at he <;>
      first
        | rfl
        | exact absurd (by decide) he
  · intro evs out h
    have h1 := parseGraphQLTimelineEvents_ok_elim evs out h
    refine ⟨h1, ?_⟩
    rw [h1]
    exact List.length_filterMap_le _ _

/-- Witness for C10 at a concrete timeline with a kept comment, a dropped
event and a kept assignment. -/
theorem timeline_events_filter_witness :
    parseGraphQLTimelineEvents sampleTimeline =
      Except.ok (sampleTimeline.filterMap timelineEmission) ∧
    (sampleTimeline.filterMap timelineEmission).length ≤ sampleTimeline.length ∧
    parseGraphQLTimelineEvent (GQLTimelineItem.mergedEvent droppedMergedEv) =
      Except.ok none ∧
    (sampleTimeline.filterMap timelineEmission).length = 2 := by
  have hdrop := timeline_events_filter.1 (GQLTimelineItem.mergedEvent droppedMergedEv)
    (by decide)
  cases hres : parseGraphQLTimelineEvents sampleTimeline with
  | error e =>
    have hok : (parseGraphQLTimelineEvents sampleTimeline).isOk = true := rfl
    rw [hres] at hok
    exact absurd hok (by simp [Except.isOk, Except.toBool])
  | ok out =>
    have h := timeline_events_filter.2 sampleTimeline out hres
    refine ⟨?_, ?_, hdrop, ?_⟩
    · rw [← h.1]
    · rw [← h.1]
      exact h.2
    · rfl

end PRGithub
